import Mathlib

/-!
Shallow embedding of `make_prez_names.py`, a one-shot generator that prints a
SQL transaction of `INSERT OR REPLACE` statements carrying randomly recombined
presidential names.  The Python global random source is modelled as an explicit
stream `g : Nat → Fin 5` giving, for the `k`-th call to `random.choice(names)`
during the run, the index of the chosen pool entry (the pool has 5 entries, so
`random.choice` is exactly a draw of an index below 5).  The printed output is
modelled as the list of printed lines, in order.
-/

namespace MakePrezNames

/-- Constant `ITEMS = 100` from the source. -/
def ITEMS : Nat := 100

/-- Constant `EDITS = 500` from the source. -/
def EDITS : Nat := 500

/-- The raw name pool, before splitting (the first `names = [...]` list). -/
def rawNames : List String :=
  ["George Washington",
   "Thomas Jefferson",
   "Abraham Lincoln",
   "Franklin Roosevelt",
   "John Kenedy"]

/-- Splitter for Python's `str.split()`: walk the characters, `acc` holding
the current word reversed; whitespace ends the current word (if any), and
empty pieces are never produced. -/
def splitWs : List Char → List Char → List String
  | [], acc => if acc.isEmpty then [] else [String.mk acc.reverse]
  | c :: cs, acc =>
    if c.isWhitespace then
      if acc.isEmpty then splitWs cs []
      else String.mk acc.reverse :: splitWs cs []
    else splitWs cs (c :: acc)

/-- Python's `str.split()` with no arguments: split on whitespace runs and
drop empty pieces. -/
def pySplit (s : String) : List String := splitWs s.data []

/-- The reassignment `names = [n.split() for n in names]`. -/
def names : List (List String) := rawNames.map pySplit

/-- The `k`-th `random.choice(names)` of the run, under stream `g`. -/
def choiceNames (g : Nat → Fin 5) (k : Nat) : List String :=
  names.getD (g k) []

/-- The token `random.choice(names)[0]` where the choice is the `k`-th draw. -/
def drawFirst (g : Nat → Fin 5) (k : Nat) : String :=
  (choiceNames g k).getD 0 ""

/-- The token `random.choice(names)[1]` where the choice is the `k`-th draw. -/
def drawLast (g : Nat → Fin 5) (k : Nat) : String :=
  (choiceNames g k).getD 1 ""

/-- The loop body's `full_name`, built by the format `%s %s` from two
consecutive draws `k` and `k + 1` (the arguments are evaluated left to
right). -/
def fullName (g : Nat → Fin 5) (k : Nat) : String :=
  drawFirst g k ++ " " ++ drawLast g (k + 1)

/-- The pair of values the loop body interpolates into one printed statement:
the slot identifier `item` and the recombined `full_name`. -/
structure Row where
  slot : Nat
  name : String

/-- The line printed by the loop body, exactly the Python format string
`INSERT OR REPLACE INTO people VALUES (%i, "%s");` applied to
`(item, full_name)`. -/
def insertLine (item : Nat) (fname : String) : String :=
  "INSERT OR REPLACE INTO people VALUES (" ++ toString item ++ ", \"" ++
    fname ++ "\");"

/-- The rows produced by one pass of the inner loop `for item in range(ITEMS)`
during pass `edit`.  Each body makes two draws, so the draw counter at
`(edit, item)` starts at `2 * (edit * nItems + item)`. -/
def passRows (nItems : Nat) (g : Nat → Fin 5) (edit : Nat) : List Row :=
  (List.range nItems).map (fun item =>
    { slot := item, name := fullName g (2 * (edit * nItems + item)) })

/-- The lines printed during one pass of the inner loop. -/
def passLines (nItems : Nat) (g : Nat → Fin 5) (edit : Nat) : List String :=
  (passRows nItems g edit).map (fun r => insertLine r.slot r.name)

/-- All insert lines: the nested loops
`for edit in range(EDITS): for item in range(ITEMS): ...`. -/
def insertLines (nItems nEdits : Nat) (g : Nat → Fin 5) : List String :=
  (List.range nEdits).flatMap (passLines nItems g)

/-- The whole printed output: `BEGIN;`, all insert lines, `COMMIT;`. -/
def run (nItems nEdits : Nat) (g : Nat → Fin 5) : List String :=
  "BEGIN;" :: (insertLines nItems nEdits g ++ ["COMMIT;"])

/-- The production run, with the source's constants `ITEMS` and `EDITS`. -/
def output (g : Nat → Fin 5) : List String := run ITEMS EDITS g

/-! ### Helper lemmas -/

theorem passLines_length (nItems : Nat) (g : Nat → Fin 5) (edit : Nat) :
    (passLines nItems g edit).length = nItems := by
  simp [passLines, passRows]

theorem insertLines_succ (nItems nEdits : Nat) (g : Nat → Fin 5) :
    insertLines nItems (nEdits + 1) g
      = insertLines nItems nEdits g ++ passLines nItems g nEdits := by
  unfold insertLines
  rw [List.range_succ, List.flatMap_append, List.flatMap_singleton]

theorem insertLines_length (nItems nEdits : Nat) (g : Nat → Fin 5) :
    (insertLines nItems nEdits g).length = nEdits * nItems := by
  induction nEdits with
  | zero => rw [Nat.zero_mul]; rfl
  | succ n ih =>
    rw [insertLines_succ, List.length_append, ih, passLines_length,
      Nat.succ_mul]

theorem slot_index_lt (nItems nEdits e it : Nat)
    (he : e < nEdits) (hit : it < nItems) :
    e * nItems + it < nEdits * nItems :=
  calc e * nItems + it < e * nItems + nItems := Nat.add_lt_add_left hit _
    _ = (e + 1) * nItems := (Nat.succ_mul e nItems).symm
    _ ≤ nEdits * nItems := Nat.mul_le_mul_right _ he

theorem passLines_getElem (nItems : Nat) (g : Nat → Fin 5) (edit it : Nat)
    (hit : it < nItems) :
    (passLines nItems g edit)[it]?
      = some (insertLine it (fullName g (2 * (edit * nItems + it)))) := by
  simp [passLines, passRows, List.getElem?_map, List.getElem?_range hit]

theorem insertLines_getElem (nItems nEdits : Nat) (g : Nat → Fin 5)
    (e it : Nat) (he : e < nEdits) (hit : it < nItems) :
    (insertLines nItems nEdits g)[e * nItems + it]?
      = some (insertLine it (fullName g (2 * (e * nItems + it)))) := by
  induction nEdits with
  | zero => exact absurd he (Nat.not_lt_zero e)
  | succ n ih =>
    rw [insertLines_succ]
    by_cases h : e < n
    · rw [List.getElem?_append_left]
      · exact ih h
      · rw [insertLines_length]
        exact slot_index_lt nItems n e it h hit
    · have hen : e = n := by omega
      subst hen
      rw [List.getElem?_append_right
        (by rw [insertLines_length]; exact Nat.le_add_right _ _)]
      rw [insertLines_length]
      have hsub : e * nItems + it - e * nItems = it := by omega
      rw [hsub]
      exact passLines_getElem nItems g e it hit

theorem run_head (nItems nEdits : Nat) (g : Nat → Fin 5) :
    (run nItems nEdits g).head? = some "BEGIN;" := rfl

theorem run_getLast (nItems nEdits : Nat) (g : Nat → Fin 5) :
    (run nItems nEdits g).getLast? = some "COMMIT;" := by
  unfold run
  rw [← List.cons_append, List.getLast?_concat]

theorem run_length (nItems nEdits : Nat) (g : Nat → Fin 5) :
    (run nItems nEdits g).length = nEdits * nItems + 2 := by
  simp [run, insertLines_length]

theorem run_getElem (nItems nEdits : Nat) (g : Nat → Fin 5)
    (e it : Nat) (he : e < nEdits) (hit : it < nItems) :
    (run nItems nEdits g)[1 + (e * nItems + it)]?
      = some (insertLine it (fullName g (2 * (e * nItems + it)))) := by
  unfold run
  rw [Nat.add_comm 1 (e * nItems + it), List.getElem?_cons_succ,
    List.getElem?_append_left
      (by rw [insertLines_length]; exact slot_index_lt nItems nEdits e it he hit)]
  exact insertLines_getElem nItems nEdits g e it he hit

theorem pool_first_mem :
    ∀ v : Fin 5, (names.getD v []).getD 0 ""
      ∈ (["George", "Thomas", "Abraham", "Franklin", "John"] : List String) := by
  decide

theorem pool_last_mem :
    ∀ v : Fin 5, (names.getD v []).getD 1 ""
      ∈ (["Washington", "Jefferson", "Lincoln", "Roosevelt", "Kenedy"] : List String) := by
  decide

/-! ### Claim theorems -/

/-- Claim C1: for every run, the first output line is exactly `BEGIN;`, the
last is exactly `COMMIT;`, and between them lie exactly `EDITS * ITEMS`
insert lines, in pass-major, slot-minor order: the line at output position
`1 + (e * nItems + it)` is the insert line of pass `e`, slot `it`. -/
theorem c1_output_skeleton (nItems nEdits : Nat) (g : Nat → Fin 5) :
    (run nItems nEdits g).head? = some "BEGIN;"
    ∧ (run nItems nEdits g).getLast? = some "COMMIT;"
    ∧ (run nItems nEdits g).length = nEdits * nItems + 2
    ∧ ∀ e it : Nat, e < nEdits → it < nItems →
        (run nItems nEdits g)[1 + (e * nItems + it)]?
          = some (insertLine it (fullName g (2 * (e * nItems + it)))) :=
  ⟨run_head nItems nEdits g, run_getLast nItems nEdits g,
   run_length nItems nEdits g,
   fun e it he hit => run_getElem nItems nEdits g e it he hit⟩

theorem c1_output_skeleton_witness :
    (run 2 3 (fun _ => (0 : Fin 5)))[1 + (1 * 2 + 1)]?
      = some (insertLine 1 (fullName (fun _ => (0 : Fin 5)) (2 * (1 * 2 + 1)))) :=
  (c1_output_skeleton 2 3 (fun _ => (0 : Fin 5))).2.2.2 1 1 (by decide) (by decide)

/-- Claim C2: within a single pass, the slot identifiers of the emitted rows
are exactly `0, 1, ..., nItems - 1` in order; in particular every slot lies in
`[0, nItems)` and each slot of that range appears exactly once per pass. -/
theorem c2_pass_slots (nItems : Nat) (g : Nat → Fin 5) (edit : Nat) :
    (passRows nItems g edit).map Row.slot = List.range nItems
    ∧ (∀ r ∈ passRows nItems g edit, r.slot < nItems)
    ∧ ∀ s : Nat, s < nItems →
        ((passRows nItems g edit).map Row.slot).count s = 1 := by
  have hmap : (passRows nItems g edit).map Row.slot = List.range nItems := by
    unfold passRows
    rw [List.map_map]
    exact List.map_id _
  refine ⟨hmap, ?_, ?_⟩
  · intro r hr
    simp only [passRows, List.mem_map, List.mem_range] at hr
    obtain ⟨it, hit, rfl⟩ := hr
    exact hit
  · intro s hs
    rw [hmap]
    exact List.count_eq_one_of_mem (List.nodup_range _) (List.mem_range.mpr hs)

theorem c2_pass_slots_witness :
    ((passRows 3 (fun _ => (0 : Fin 5)) 0).map Row.slot).count 2 = 1 :=
  (c2_pass_slots 3 (fun _ => (0 : Fin 5)) 0).2.2 2 (by decide)

/-- Claim C3: every recombined name pairs a first-name token drawn from the
5-element pool with a last-name token independently drawn from the same pool:
the `k`-th loop body's name is `drawFirst` of draw `k` followed by `drawLast`
of draw `k + 1`, the first token always one of George, Thomas, Abraham,
Franklin, John and the last token always one of Washington, Jefferson,
Lincoln, Roosevelt, Kenedy, under any stream `g` (so they may come from two
different original entries). -/
theorem c3_name_components (g : Nat → Fin 5) (k : Nat) :
    fullName g k = drawFirst g k ++ " " ++ drawLast g (k + 1)
    ∧ drawFirst g k
        ∈ (["George", "Thomas", "Abraham", "Franklin", "John"] : List String)
    ∧ drawLast g (k + 1)
        ∈ (["Washington", "Jefferson", "Lincoln", "Roosevelt", "Kenedy"] : List String) :=
  ⟨rfl, pool_first_mem (g k), pool_last_mem (g (k + 1))⟩

/-- Claim C4: every emitted insert line is exactly the format string
`INSERT OR REPLACE INTO people VALUES (%i, "%s");` with the slot integer and
the name interpolated verbatim, no escaping layer; in particular a name
containing a quote character appears unescaped in the output. -/
theorem c4_line_format :
    (∀ slot : Nat, ∀ fname : String,
      insertLine slot fname
        = ("INSERT OR REPLACE INTO people VALUES (" ++ toString slot ++ ", \"")
            ++ fname ++ "\");")
    ∧ insertLine 7 "Abraham \"Abe\" Lincoln"
        = "INSERT OR REPLACE INTO people VALUES (7, \"Abraham \"Abe\" Lincoln\");" :=
  ⟨fun _ _ => rfl, rfl⟩

/-- Claim C5: the configuration is the two fixed constants `ITEMS = 100` and
`EDITS = 500`, and with those values every run emits exactly 50000 insert
lines. -/
theorem c5_configuration :
    ITEMS = 100 ∧ EDITS = 500
    ∧ ∀ g : Nat → Fin 5, (insertLines ITEMS EDITS g).length = 50000 := by
  refine ⟨rfl, rfl, fun g => ?_⟩
  rw [insertLines_length]
  rfl

/-- Claim C6: determinism — two runs that observe the same sequence of random
draws produce identical output; the output is a function of the draw stream
alone. -/
theorem c6_deterministic (nItems nEdits : Nat) (g1 g2 : Nat → Fin 5)
    (h : ∀ k, g1 k = g2 k) :
    run nItems nEdits g1 = run nItems nEdits g2 := by
  rw [funext h]

theorem c6_deterministic_witness :
    run 1 1 (fun _ => (0 : Fin 5)) = run 1 1 (fun _ => (0 : Fin 5)) :=
  c6_deterministic 1 1 (fun _ => (0 : Fin 5)) (fun _ => (0 : Fin 5))
    (fun _ => rfl)

/-- Claim C7: end-to-end scenario — with `ITEMS = 2`, `EDITS = 1` and a random
source whose every draw returns the first pool entry, the output is exactly
the four stated lines in order and nothing else. -/
theorem c7_end_to_end :
    run 2 1 (fun _ => (0 : Fin 5))
      = ["BEGIN;",
         "INSERT OR REPLACE INTO people VALUES (0, \"George Washington\");",
         "INSERT OR REPLACE INTO people VALUES (1, \"George Washington\");",
         "COMMIT;"] := by
  decide

/-- Claim C8: termination — for every non-negative `nItems` and `nEdits` the
generator performs exactly `nEdits * nItems` loop iterations (one insert line
each) and terminates with the two boundary lines around them; the embedding is
a total function. -/
theorem c8_termination (nItems nEdits : Nat) (g : Nat → Fin 5) :
    (insertLines nItems nEdits g).length = nEdits * nItems
    ∧ (run nItems nEdits g).length = nEdits * nItems + 2 :=
  ⟨insertLines_length nItems nEdits g, run_length nItems nEdits g⟩

/-- Claim C10: noninterference of the random source with the output skeleton —
for any two streams, both runs have the same length, the same first and last
boundary lines, and the same slot identifier sequence in every pass; at every
insert position both runs emit an insert line with the same slot, the stream
influencing only the interpolated name. -/
theorem c10_noninterference (nItems nEdits : Nat) (g1 g2 : Nat → Fin 5) :
    (run nItems nEdits g1).length = (run nItems nEdits g2).length
    ∧ (run nItems nEdits g1).head? = (run nItems nEdits g2).head?
    ∧ (run nItems nEdits g1).getLast? = (run nItems nEdits g2).getLast?
    ∧ (∀ edit : Nat, (passRows nItems g1 edit).map Row.slot
        = (passRows nItems g2 edit).map Row.slot)
    ∧ ∀ e it : Nat, e < nEdits → it < nItems →
        (run nItems nEdits g1)[1 + (e * nItems + it)]?
          = some (insertLine it (fullName g1 (2 * (e * nItems + it))))
        ∧ (run nItems nEdits g2)[1 + (e * nItems + it)]?
          = some (insertLine it (fullName g2 (2 * (e * nItems + it)))) := by
  refine ⟨?_, ?_, ?_, ?_, ?_⟩
  · rw [run_length, run_length]
  · rw [run_head, run_head]
  · rw [run_getLast, run_getLast]
  · intro edit
    simp [passRows, List.map_map, Function.comp]
  · intro e it he hit
    exact ⟨run_getElem nItems nEdits g1 e it he hit,
           run_getElem nItems nEdits g2 e it he hit⟩

theorem c10_noninterference_witness :
    (run 1 1 (fun _ => (0 : Fin 5)))[1 + (0 * 1 + 0)]?
      = some (insertLine 0 (fullName (fun _ => (0 : Fin 5)) (2 * (0 * 1 + 0))))
    ∧ (run 1 1 (fun _ => (1 : Fin 5)))[1 + (0 * 1 + 0)]?
      = some (insertLine 0 (fullName (fun _ => (1 : Fin 5)) (2 * (0 * 1 + 0)))) :=
  (c10_noninterference 1 1 (fun _ => (0 : Fin 5)) (fun _ => (1 : Fin 5))).2.2.2.2
    0 0 (by decide) (by decide)

/-- Claim C9: pool-indexing safety — every pool entry, after the startup
split on whitespace, is a list of exactly two tokens, so the accesses `[0]`
and `[1]` on any randomly chosen entry are in bounds. -/
theorem c9_pool_entries_two_tokens :
    ∀ v : Fin 5, (names.getD v []).length = 2
      ∧ ((names.getD v [])[0]?).isSome ∧ ((names.getD v [])[1]?).isSome := by
  decide

end MakePrezNames
